import Mathlib

/-!
Shallow embedding of `src/lib/prompts/radio.js` (`RadioPrompt`), the
single-select terminal list prompt: choice data model, selection state
machine, navigation, submission/cancellation, and rendering.

The `Choices` collection class, the `incrementListIndex` utility and the
`commonStrings` table are repository code that is not part of the prompt
source file; their contracts are modelled from the specification (each
such definition carries a `Modelled from the spec:` doc comment).
External collaborators (chalk, figures, the paginator, the base class
question text) are modelled as concrete string functions or parameters.
-/

namespace Radio

/-- Modelled from the spec: the `disabled` field of a choice as the
prompt reads it — absent/falsy, a bare truthy flag, or an explanatory
string (JS truthiness: the empty string is falsy). -/
inductive DisabledFlag
  | off
  | on
  | reason (r : String)
deriving DecidableEq, Repr

/-- JS truthiness of the `disabled` field (`!choice.disabled` in
`getCurrentValue`, `if (choice.disabled)` in `renderChoices`). -/
def DisabledFlag.truthy : DisabledFlag → Bool
  | .off => false
  | .on => true
  | .reason r => !(r == "")

/-- Modelled from the spec: a Choice List entry (the `Choices` class is
not part of the prompt source file). A separator carries only its display
line and has no `checked`/`value`/`disabled` fields; every other entry
carries the fields the prompt reads: `name`, `value`, `short`, `checked`,
`disabled`. -/
inductive Choice
  | separator (line : String)
  | item (name value short : String) (checked : Bool) (disabled : DisabledFlag)
deriving DecidableEq, Repr

/-- `choice.type === 'separator'`. -/
def Choice.isSep : Choice → Bool
  | .separator _ => true
  | .item _ _ _ _ _ => false

/-- `choice.name` (for a separator this stands for its rendered line,
used where the source stringifies the separator). -/
def Choice.name : Choice → String
  | .separator l => l
  | .item n _ _ _ _ => n

def Choice.value : Choice → String
  | .separator _ => ""
  | .item _ v _ _ _ => v

def Choice.short : Choice → String
  | .separator _ => ""
  | .item _ _ s _ _ => s

/-- `Boolean(choice.checked)`; a separator has no `checked` field, so it
reads falsy. -/
def Choice.checked : Choice → Bool
  | .separator _ => false
  | .item _ _ _ c _ => c

def Choice.disabledF : Choice → DisabledFlag
  | .separator _ => .off
  | .item _ _ _ _ d => d

/-- JS truthiness of `choice.disabled`. -/
def Choice.disabledT (c : Choice) : Bool := c.disabledF.truthy

/-- `choice.checked = b` (a separator has no such field to write). -/
def Choice.setChecked : Choice → Bool → Choice
  | .separator l, _ => .separator l
  | .item n v s _ d, b => .item n v s b d

/-- Modelled from the spec: the navigable ("real") choices of the Choice
List — every non-separator entry in order (spec 3: "count of navigable
(non-separator) items"; disabled rows stay navigable per spec 4.2). -/
def realChoices (l : List Choice) : List Choice := l.filter (fun c => !c.isSep)

/-- Modelled from the spec: `realLength`, the count of navigable choices. -/
def realLength (l : List Choice) : Nat := (realChoices l).length

/-- Modelled from the spec: `getChoice(index) -> Choice | undefined`
(spec 4.1) — lookup into the navigable choices, `none` out of range. -/
def getChoice (l : List Choice) (i : Int) : Option Choice :=
  if i < 0 then none else (realChoices l)[i.toNat]?

/-- Replace the entry at one position of a list; identity out of range. -/
def modifyIdx {α : Type} (f : α → α) : Nat → List α → List α
  | _, [] => []
  | 0, a :: l => f a :: l
  | n + 1, a :: l => a :: modifyIdx f n l

/-- Apply `f` in place to the i-th navigable (non-separator) choice of
the full list; identity when no such choice exists. This is how the
prompt's in-place mutation of the object returned by `getChoice(i)` acts
on the underlying list. -/
def updateReal (f : Choice → Choice) : Nat → List Choice → List Choice
  | _, [] => []
  | i, c :: cs =>
    if c.isSep then c :: updateReal f i cs
    else
      match i with
      | 0 => f c :: cs
      | iSucc + 1 => c :: updateReal f iSucc cs

/-- Modelled from the spec: session status, `active` until a terminal
result is delivered, then `answered` (spec 4.5). -/
inductive SessionStatus
  | active
  | answered
deriving DecidableEq, Repr

/-- Prompt session state: the fields of `RadioPrompt` that the embedded
operations read and write (`this.opt.choices`, `this.pointer`,
`this.selected`, `this.selection`, `this.status`, `this.dontShowHints`,
and the `loop` option fixed at construction). -/
structure RadioState where
  choices : List Choice
  pointer : Nat
  selected : String
  selection : List String
  status : SessionStatus
  dontShowHints : Bool
  loop : Bool
deriving DecidableEq, Repr

/-- Constructor: with an array `default`, pre-check every choice whose
`value` occurs in it; start with `pointer = 0` and `selected = ""`.
`loop` is the resolved option (`true` when absent). -/
def construct (choices : List Choice) (dflt : Option (List String)) (loop : Bool) : RadioState :=
  let cs :=
    match dflt with
    | none => choices
    | some ds =>
      choices.map fun c =>
        match c with
        | .separator l => .separator l
        | .item n v s ch d => .item n v s (if ds.contains v then true else ch) d
  { choices := cs, pointer := 0, selected := "", selection := [],
    status := .active, dontShowHints := false, loop := loop }

/-- `setChoice(index)`: mark the looked-up choice checked and record its
name in `selected`; no-op when the lookup fails. -/
def setChoice (st : RadioState) (index : Int) : RadioState :=
  match getChoice st.choices index with
  | none => st
  | some item =>
    { st with
      choices := updateReal (fun c => c.setChecked true) index.toNat st.choices,
      selected := item.name }

/-- `clearChoice(index)`: unmark the looked-up choice; if it was the
recorded selection, reset `selected`; no-op when the lookup fails. -/
def clearChoice (st : RadioState) (index : Int) : RadioState :=
  match getChoice st.choices index with
  | none => st
  | some item =>
    let stCleared :=
      { st with choices := updateReal (fun c => c.setChecked false) index.toNat st.choices }
    if stCleared.selected == item.name then { stCleared with selected := "" } else stCleared

/-- The `for (let i = 0; i < realLength; i++) clearChoice(i)` loop of
`clearAllChoices`; `fuel` is the remaining trip count (the loop bound
`realLength` is invariant under `clearChoice`, see
`realLength_clearChoice`, so fuel `realLength` runs the loop to its
JS termination). -/
def clearFrom : RadioState → Nat → Nat → RadioState
  | st, _, 0 => st
  | st, i, fuel + 1 =>
    if i < realLength st.choices then clearFrom (clearChoice st (Int.ofNat i)) (i + 1) fuel
    else st

/-- `clearAllChoices()`: clear every navigable choice, then reset
`selected`. -/
def clearAllChoices (st : RadioState) : RadioState :=
  { clearFrom st 0 (realLength st.choices) with selected := "" }

/-- `onSpaceKey`: `clearAllChoices()` then `setChoice(pointer)`
(rendering is separate and pure). -/
def onSpaceKey (st : RadioState) : RadioState :=
  setChoice (clearAllChoices st) (Int.ofNat st.pointer)

/-- The per-choice toggle of `onInverseKey`: non-separators get
`checked = !checked`. -/
def invChoice : Choice → Choice
  | .separator l => .separator l
  | .item n v s ch d => .item n v s (!ch) d

/-- `onInverseKey`: invert the checked flag of every non-separator. -/
def onInverseKey (st : RadioState) : RadioState :=
  { st with choices := st.choices.map invChoice }

inductive Direction
  | up
  | down
deriving DecidableEq, Repr

/-- Modelled from the spec: `move(pointer, direction, list, loop)`
(spec 4.2, the `incrementListIndex` utility) — step by one over the
navigable choices, wrapping at the ends when `loop` is true, staying put
at a boundary when it is false, and leaving the pointer unchanged when
there is no navigable choice. Separators are skipped by construction
(the pointer indexes the navigable choices); disabled rows are valid
resting positions. -/
def incrementListIndex (pointer : Nat) (dir : Direction) (choices : List Choice) (loop : Bool) :
    Nat :=
  let len := realLength choices
  if len = 0 then pointer
  else
    match dir with
    | .up => if 0 < pointer then pointer - 1 else if loop then len - 1 else pointer
    | .down => if pointer + 1 < len then pointer + 1 else if loop then 0 else pointer

def onUpKey (st : RadioState) : RadioState :=
  { st with pointer := incrementListIndex st.pointer .up st.choices st.loop }

def onDownKey (st : RadioState) : RadioState :=
  { st with pointer := incrementListIndex st.pointer .down st.choices st.loop }

/-- `getPointed()`: the empty string on an empty raw list, otherwise
`getChoice(pointer).name`; `none` models the TypeError the source hits
reading `.name` of `undefined` when the raw list is non-empty but the
pointer is outside the navigable choices. -/
def getPointed (st : RadioState) : Option String :=
  if st.choices.length > 0 then (getChoice st.choices (Int.ofNat st.pointer)).map Choice.name
  else some ""

/-- Modelled from the spec: the delivered terminal result — either the
conventional cancellation sentinel (`commonStrings.cancelString`) or the
list of collected answer values (spec 4.5 and glossary). -/
inductive Result
  | cancelSentinel
  | answers (vs : List String)
deriving DecidableEq, Repr

/-- `getCurrentValue()`: collect every checked, non-disabled choice;
cache their `short` labels in `selection` and return their `value`
payloads. -/
def getCurrentValue (st : RadioState) : RadioState × List String :=
  let chosen := st.choices.filter fun c => c.checked && !c.disabledT
  ({ st with selection := chosen.map Choice.short }, chosen.map Choice.value)

/-- `onEnd(state)`: with no submitted state (backspace path) or an empty
cached selection, clear the selection and deliver the cancellation
sentinel; otherwise deliver the submitted values. Always ends with
`status = answered` and hints suppressed. -/
def onEnd (st : RadioState) (state : Option (List String)) : RadioState × Result :=
  let selRes :=
    match state with
    | none => (([] : List String), Result.cancelSentinel)
    | some vs =>
      if st.selection.length = 0 then (([] : List String), Result.cancelSentinel)
      else (st.selection, Result.answers vs)
  ({ st with selection := selRes.1, status := .answered, dontShowHints := true }, selRes.2)

/-- Submit (enter): the success path wired in `_run` —
`getCurrentValue` feeds `onEnd`. -/
def submit (st : RadioState) : RadioState × Result :=
  let p := getCurrentValue st
  onEnd p.1 (some p.2)

/-- `onBackspaceKeyKey()`: backspace calls `onEnd` with no state. -/
def backspace (st : RadioState) : RadioState × Result := onEnd st none

/-- External collaborator (chalk): ANSI cyan wrapping. -/
def chalkCyan (s : String) : String := "\x1B[36m" ++ s ++ "\x1B[39m"

/-- External collaborator (chalk): ANSI green wrapping. -/
def chalkGreen (s : String) : String := "\x1B[32m" ++ s ++ "\x1B[39m"

/-- External collaborator (chalk): ANSI red wrapping. -/
def chalkRed (s : String) : String := "\x1B[31m" ++ s ++ "\x1B[39m"

/-- External collaborator (chalk): bold cyan wrapping. -/
def chalkCyanBold (s : String) : String := "\x1B[36m\x1B[1m" ++ s ++ "\x1B[22m\x1B[39m"

/-- External collaborator (figures): pointer glyph. -/
def figPointer : String := "❯"

/-- External collaborator (figures): checked radio glyph. -/
def figRadioOn : String := "◉"

/-- External collaborator (figures): unchecked radio glyph. -/
def figRadioOff : String := "◯"

/-- `getCheckbox(checked)`. -/
def getCheckbox (checked : Bool) : String :=
  if checked then chalkGreen figRadioOn else figRadioOff

/-- The `choices.forEach` body of `renderChoices`: `i` is the raw index,
`sep` the running `separatorOffset` (incremented on separators and on
disabled rows). -/
def renderChoicesAux : List Choice → Nat → Nat → Nat → String
  | [], _, _, _ => ""
  | c :: cs, pointer, i, sep =>
    match c with
    | .separator line => " " ++ line ++ "\n" ++ renderChoicesAux cs pointer (i + 1) (sep + 1)
    | .item nm _ _ ch dis =>
      if dis.truthy then
        " - " ++ nm ++ " ("
          ++ (match dis with
              | .reason r => r
              | _ => "Disabled")
          ++ ")" ++ "\n" ++ renderChoicesAux cs pointer (i + 1) (sep + 1)
      else
        let line := getCheckbox ch ++ " " ++ nm
        (if i - sep = pointer then chalkCyan (figPointer ++ line) else " " ++ line)
          ++ "\n" ++ renderChoicesAux cs pointer (i + 1) sep

/-- `renderChoices(choices, pointer)`: render each row, then strip the
single trailing newline (`output.replace(/\n$/, '')`). -/
def renderChoices (choices : List Choice) (pointer : Nat) : String :=
  let output := renderChoicesAux choices pointer 0 0
  if output.endsWith "\n" then output.dropRight 1 else output

/-- JS `Array.prototype.indexOf`: first match, `-1` when absent. -/
def indexOfC (l : List Choice) (c : Choice) : Int :=
  match l with
  | [] => -1
  | x :: xs =>
    if x = c then 0
    else
      let r := indexOfC xs c
      if r < 0 then -1 else r + 1

/-- Lines a choice occupies in the rendered block: separators (and
non-string names) count one, string names count their newline-split
length. -/
def lineCount (c : Choice) : Nat :=
  match c with
  | .separator _ => 1
  | .item n _ _ _ _ => (n.splitOn "\n").length

/-- The `reduce` in `render` summing line heights of every entry whose
raw index is at most `idxPos`. -/
def sumLinesUpTo : List Choice → Int → Int
  | [], _ => 0
  | c :: cs, idxPos =>
    (if 0 ≤ idxPos then (lineCount c : Int) else 0) + sumLinesUpTo cs (idxPos - 1)

/-- The focus line (`realIndexPosition`) handed to the paginator. -/
def realIndexPosition (choices : List Choice) (pointer : Nat) : Int :=
  let indexPosition : Int :=
    match getChoice choices (Int.ofNat pointer) with
    | none => -1
    | some c => indexOfC choices c
  sumLinesUpTo choices indexPosition - 1

/-- The fixed key-hint block appended while hints are shown. -/
def hintLine : String :=
  "\n(Press " ++ chalkCyanBold "<space>" ++ " to select, " ++ chalkCyanBold "<enter>"
    ++ " to proceed, " ++ chalkCyanBold "<backspace>" ++ " to go back, or"
    ++ " leave no selection and press " ++ chalkCyanBold "<enter>" ++ " to go back)"

/-- `render(error)`: the question (`getQuestion()` of the base class is
passed in as `question`), the optional hint block, then either the
comma-joined answered selection or the paginated choice block
(`paginate` stands for the Paginator collaborator with the session page
size folded in), plus the bottom error line. Returns the
`(message, bottomContent)` pair handed to `screen.render`. -/
def render (question : String) (paginate : String → Int → String) (error : Option String)
    (st : RadioState) : String × String :=
  let message := question
  let message := if !st.dontShowHints then message ++ hintLine else message
  let message :=
    match st.status with
    | .answered => message ++ chalkCyan (String.intercalate ", " st.selection)
    | .active =>
      message ++ "\n"
        ++ paginate (renderChoices st.choices st.pointer) (realIndexPosition st.choices st.pointer)
  let bottom :=
    match error with
    | some e => chalkRed ">> " ++ e
    | none => ""
  (message, bottom)

/-- The session operations quantified over by the reachability claims. -/
inductive RadioOp
  | space
  | up
  | down
  | inverse
  | setIdx (i : Int)
  | clearIdx (i : Int)
  | clearAll
deriving DecidableEq, Repr

def applyOp (st : RadioState) : RadioOp → RadioState
  | .space => onSpaceKey st
  | .up => onUpKey st
  | .down => onDownKey st
  | .inverse => onInverseKey st
  | .setIdx i => setChoice st i
  | .clearIdx i => clearChoice st i
  | .clearAll => clearAllChoices st

def applyOps (st : RadioState) (ops : List RadioOp) : RadioState := ops.foldl applyOp st

/-- The operations that cannot drive the checked count past one:
everything except the bulk inverse toggle and a bare `setChoice`. -/
def RadioOp.single : RadioOp → Bool
  | .inverse => false
  | .setIdx _ => false
  | _ => true

/-- A checked, non-disabled (Selectable) choice. -/
def selCheckedP (c : Choice) : Bool := c.checked && !c.disabledT

/-- Number of checked Selectable (non-disabled, non-separator) choices. -/
def checkedSelectableCount (l : List Choice) : Nat := (l.filter selCheckedP).length

/-- Number of checked choices. -/
def checkedCount (l : List Choice) : Nat := (l.filter Choice.checked).length

/-! Concrete fixtures used by counterexamples and witnesses. -/

def itemA : Choice := .item "A" "a" "A" false .off

def itemB : Choice := .item "B" "b" "B" false .off

def itemC : Choice := .item "C" "c" "C" false .off

def itemAdis : Choice := .item "A" "a" "A" false .on

def st2 : RadioState := construct [itemA, itemB] none true

def stEmpty : RadioState := construct [] none true

def st3dis : RadioState := onDownKey (construct [itemAdis, itemB, itemC] none true)

def stC1 : RadioState :=
  construct [itemA, Choice.item "D" "d" "D" true (.reason "later")] none true

def st1checked : RadioState := construct [itemA] (some ["a"]) true

def stAback : RadioState := (backspace st1checked).1

def stAsub : RadioState := (submit st1checked).1

def idPaginate : String → Int → String := fun s _ => s

/-! Helper lemmas about the embedded data structures. -/

theorem setChecked_isSep (c : Choice) (b : Bool) : (c.setChecked b).isSep = c.isSep := by
  cases c <;> rfl

theorem setChecked_false_checked (c : Choice) : (c.setChecked false).checked = false := by
  cases c <;> rfl

theorem setChecked_true_checked (c : Choice) (h : c.isSep = false) :
    (c.setChecked true).checked = true := by
  cases c with
  | separator l => simp [Choice.isSep] at h
  | item n v s ch d => rfl

theorem sep_checked_false (c : Choice) (h : c.isSep = true) : c.checked = false := by
  cases c with
  | separator l => rfl
  | item n v s ch d => simp [Choice.isSep] at h

theorem modifyIdx_length {α : Type} (f : α → α) :
    ∀ (n : Nat) (l : List α), (modifyIdx f n l).length = l.length
  | n, [] => by cases n <;> rfl
  | 0, _ :: _ => rfl
  | n + 1, a :: l => by simp [modifyIdx, modifyIdx_length f n l]

theorem modifyIdx_of_len_le {α : Type} (f : α → α) :
    ∀ (n : Nat) (l : List α), l.length ≤ n → modifyIdx f n l = l
  | n, [], _ => by cases n <;> rfl
  | 0, a :: l, h => by simp at h
  | n + 1, a :: l, h => by
    have h' : l.length ≤ n := by simpa using h
    simp [modifyIdx, modifyIdx_of_len_le f n l h']

theorem modifyIdx_get_self {α : Type} (f : α → α) :
    ∀ (n : Nat) (l : List α), (modifyIdx f n l)[n]? = l[n]?.map f
  | _, [] => by simp [modifyIdx]
  | 0, a :: l => by simp [modifyIdx]
  | n + 1, a :: l => by simp [modifyIdx, modifyIdx_get_self f n l]

theorem modifyIdx_get_ne {α : Type} (f : α → α) :
    ∀ (n m : Nat) (l : List α), m ≠ n → (modifyIdx f n l)[m]? = l[m]?
  | _, _, [], _ => by simp [modifyIdx]
  | 0, 0, a :: l, h => absurd rfl h
  | 0, m + 1, a :: l, _ => by simp [modifyIdx]
  | n + 1, 0, a :: l, _ => by simp [modifyIdx]
  | n + 1, m + 1, a :: l, h => by
    simpa [modifyIdx] using modifyIdx_get_ne f n m l (by omega)

theorem filter_modifyIdx_le {α : Type} (p : α → Bool) (f : α → α) :
    ∀ (n : Nat) (l : List α),
      ((modifyIdx f n l).filter p).length ≤ (l.filter p).length + 1
  | _, [] => by simp [modifyIdx]
  | 0, a :: l => by
    simp only [modifyIdx, List.filter_cons]
    cases hfa : p (f a) <;> cases ha : p a <;> simp <;> omega
  | n + 1, a :: l => by
    have ih := filter_modifyIdx_le p f n l
    simp only [modifyIdx, List.filter_cons]
    cases ha : p a <;> simp <;> omega

theorem filter_modifyIdx_le_of {α : Type} (p : α → Bool) (f : α → α)
    (hf : ∀ a, p (f a) = false) :
    ∀ (n : Nat) (l : List α),
      ((modifyIdx f n l).filter p).length ≤ (l.filter p).length
  | n, [] => by cases n <;> simp [modifyIdx]
  | 0, a :: l => by
    simp only [modifyIdx, List.filter_cons, hf a]
    cases ha : p a <;> simp <;> omega
  | n + 1, a :: l => by
    have ih := filter_modifyIdx_le_of p f hf n l
    simp only [modifyIdx, List.filter_cons]
    cases ha : p a <;> simp <;> omega

theorem filter_modifyIdx_one {α : Type} (p : α → Bool) (f : α → α) :
    ∀ (n : Nat) (l : List α), (∀ a ∈ l, p a = false) → (∀ a ∈ l, p (f a) = true) →
      n < l.length → ((modifyIdx f n l).filter p).length = 1
  | 0, a :: l, h0, h1, _ => by
    have hl : l.filter p = [] :=
      List.filter_eq_nil_iff.mpr fun x hx => by
        simp [h0 x (List.mem_cons_of_mem _ hx)]
    simp [modifyIdx, List.filter_cons, h1 a (List.mem_cons_self a l), hl]
  | n + 1, a :: l, h0, h1, hlen => by
    have hlen' : n < l.length := by
      simp only [List.length_cons] at hlen
      omega
    have hrec : ((modifyIdx f n l).filter p).length = 1 :=
      filter_modifyIdx_one p f n l (fun x hx => h0 x (List.mem_cons_of_mem _ hx))
        (fun x hx => h1 x (List.mem_cons_of_mem _ hx)) hlen'
    simp [modifyIdx, List.filter_cons, h0 a (List.mem_cons_self a l), hrec]

theorem realChoices_cons_sep (c : Choice) (l : List Choice) (h : c.isSep = true) :
    realChoices (c :: l) = realChoices l := by
  simp [realChoices, List.filter_cons, h]

theorem realChoices_cons_real (c : Choice) (l : List Choice) (h : c.isSep = false) :
    realChoices (c :: l) = c :: realChoices l := by
  simp [realChoices, List.filter_cons, h]

theorem mem_realChoices_isSep (c : Choice) (l : List Choice) (h : c ∈ realChoices l) :
    c.isSep = false := by
  have := (List.mem_filter.mp h).2
  simpa using this

theorem realChoices_updateReal (f : Choice → Choice) (hf : ∀ c, (f c).isSep = c.isSep) :
    ∀ (n : Nat) (l : List Choice),
      realChoices (updateReal f n l) = modifyIdx f n (realChoices l)
  | n, [] => by
    cases n <;> simp [updateReal, realChoices, modifyIdx]
  | n, c :: l => by
    cases hs : c.isSep with
    | true =>
      rw [realChoices_cons_sep c l hs]
      show realChoices (if c.isSep = true then _ else _) = _
      rw [if_pos hs, realChoices_cons_sep c _ hs, realChoices_updateReal f hf n l]
    | false =>
      rw [realChoices_cons_real c l hs]
      show realChoices (if c.isSep = true then _ else _) = _
      rw [if_neg (by simp [hs])]
      match n with
      | 0 =>
        show realChoices (f c :: l) = f c :: realChoices l
        exact realChoices_cons_real (f c) l (by rw [hf, hs])
      | m + 1 =>
        show realChoices (c :: updateReal f m l) = c :: modifyIdx f m (realChoices l)
        rw [realChoices_cons_real c _ hs, realChoices_updateReal f hf m l]

theorem intOfNat_nonneg (n : Nat) : 0 ≤ Int.ofNat n := Int.ofNat_nonneg n

theorem intOfNat_toNat (n : Nat) : (Int.ofNat n).toNat = n := rfl

theorem getChoice_nonneg (l : List Choice) (i : Int) (h : 0 ≤ i) :
    getChoice l i = (realChoices l)[i.toNat]? := by
  simp [getChoice, Int.not_lt.mpr h]

theorem getChoice_none (l : List Choice) (i : Int)
    (h : i < 0 ∨ (realLength l : Int) ≤ i) : getChoice l i = none := by
  rcases h with h | h
  · simp [getChoice, h]
  · have h0 : ¬ i < 0 := by omega
    have hlen : (realChoices l).length ≤ i.toNat := by
      simp only [realLength] at h
      omega
    simp [getChoice, h0, List.getElem?_eq_none hlen]

theorem setChoice_choices (st : RadioState) (i : Int) (h : 0 ≤ i) :
    realChoices (setChoice st i).choices
      = modifyIdx (fun c => c.setChecked true) i.toNat (realChoices st.choices) := by
  rw [setChoice, getChoice_nonneg st.choices i h]
  cases hg : (realChoices st.choices)[i.toNat]? with
  | none =>
    have hlen : (realChoices st.choices).length ≤ i.toNat := List.getElem?_eq_none_iff.mp hg
    simpa using (modifyIdx_of_len_le (fun c => c.setChecked true) i.toNat
      (realChoices st.choices) hlen).symm
  | some c =>
    simpa using realChoices_updateReal (fun c => c.setChecked true)
      (fun c => setChecked_isSep c true) i.toNat st.choices

theorem clearChoice_choices (st : RadioState) (i : Int) (h : 0 ≤ i) :
    realChoices (clearChoice st i).choices
      = modifyIdx (fun c => c.setChecked false) i.toNat (realChoices st.choices) := by
  rw [clearChoice, getChoice_nonneg st.choices i h]
  cases hg : (realChoices st.choices)[i.toNat]? with
  | none =>
    have hlen : (realChoices st.choices).length ≤ i.toNat := List.getElem?_eq_none_iff.mp hg
    simpa using (modifyIdx_of_len_le (fun c => c.setChecked false) i.toNat
      (realChoices st.choices) hlen).symm
  | some c =>
    have hupd := realChoices_updateReal (fun c => c.setChecked false)
      (fun c => setChecked_isSep c false) i.toNat st.choices
    simp only []
    split
    · simpa using hupd
    · simpa using hupd

theorem setChoice_neg (st : RadioState) (i : Int) (h : i < 0) : setChoice st i = st := by
  simp [setChoice, getChoice, h]

theorem clearChoice_neg (st : RadioState) (i : Int) (h : i < 0) : clearChoice st i = st := by
  simp [clearChoice, getChoice, h]

theorem realLength_setChoice (st : RadioState) (i : Int) :
    realLength (setChoice st i).choices = realLength st.choices := by
  rcases Int.lt_or_le i 0 with h | h
  · rw [setChoice_neg st i h]
  · simp [realLength, setChoice_choices st i h, modifyIdx_length]

theorem realLength_clearChoice (st : RadioState) (i : Int) :
    realLength (clearChoice st i).choices = realLength st.choices := by
  rcases Int.lt_or_le i 0 with h | h
  · rw [clearChoice_neg st i h]
  · simp [realLength, clearChoice_choices st i h, modifyIdx_length]

theorem clearFrom_get_lt (fuel : Nat) :
    ∀ (st : RadioState) (i k : Nat), k < i →
      (realChoices (clearFrom st i fuel).choices)[k]?
        = (realChoices st.choices)[k]? := by
  induction fuel with
  | zero => intro st i k _; rfl
  | succ n ih =>
    intro st i k hk
    rw [clearFrom]
    by_cases h : i < realLength st.choices
    · rw [if_pos h, ih (clearChoice st (Int.ofNat i)) (i + 1) k (by omega),
        clearChoice_choices st (Int.ofNat i) (intOfNat_nonneg i), intOfNat_toNat]
      exact modifyIdx_get_ne (fun c => c.setChecked false) i k
        (realChoices st.choices) (by omega)
    · rw [if_neg h]

theorem clearFrom_unchecked (fuel : Nat) :
    ∀ (st : RadioState) (i : Nat), realLength st.choices ≤ i + fuel →
      ∀ (k : Nat) (c : Choice), i ≤ k →
        (realChoices (clearFrom st i fuel).choices)[k]? = some c → c.checked = false := by
  induction fuel with
  | zero =>
    intro st i hfuel k c hik hget
    have : (realChoices st.choices)[k]? = none :=
      List.getElem?_eq_none (by simp only [realLength] at hfuel; omega)
    rw [clearFrom] at hget
    rw [this] at hget
    exact absurd hget (by simp)
  | succ n ih =>
    intro st i hfuel k c hik hget
    rw [clearFrom] at hget
    by_cases h : i < realLength st.choices
    · rw [if_pos h] at hget
      rcases Nat.lt_or_ge i k with hik2 | hik2
      · exact ih (clearChoice st (Int.ofNat i)) (i + 1)
          (by rw [realLength_clearChoice]; omega) k c (by omega) hget
      · have hki : k = i := by omega
        subst hki
        rw [clearFrom_get_lt n (clearChoice st (Int.ofNat k)) (k + 1) k (by omega),
          clearChoice_choices st (Int.ofNat k) (intOfNat_nonneg k), intOfNat_toNat,
          modifyIdx_get_self] at hget
        cases hg0 : (realChoices st.choices)[k]? with
        | none => rw [hg0] at hget; exact absurd hget (by simp)
        | some c0 =>
          rw [hg0] at hget
          simp only [Option.map_some'] at hget
          have : c = c0.setChecked false := (Option.some.inj hget).symm
          rw [this]
          exact setChecked_false_checked c0
    · rw [if_neg h] at hget
      have : (realChoices st.choices)[k]? = none :=
        List.getElem?_eq_none (by simp only [realLength] at h; omega)
      rw [this] at hget
      exact absurd hget (by simp)

theorem clearAll_choices_eq (st : RadioState) :
    (clearAllChoices st).choices = (clearFrom st 0 (realLength st.choices)).choices := rfl

/-- Core fact shared by several claims: `clearAllChoices` leaves every
choice unchecked (separators carry no checked flag; every navigable
choice is cleared by the loop). -/
theorem clearAll_choices_unchecked (st : RadioState) :
    ∀ c ∈ (clearAllChoices st).choices, c.checked = false := by
  intro c hc
  cases hs : c.isSep with
  | true => exact sep_checked_false c hs
  | false =>
    have hmem : c ∈ realChoices (clearAllChoices st).choices :=
      List.mem_filter.mpr ⟨hc, by simp [hs]⟩
    rw [clearAll_choices_eq] at hmem
    obtain ⟨k, hk⟩ := List.mem_iff_getElem?.mp hmem
    exact clearFrom_unchecked (realLength st.choices) st 0 (by omega) k c (Nat.zero_le k) hk

theorem clearAll_selected (st : RadioState) : (clearAllChoices st).selected = "" := rfl

theorem realLength_clearFrom (fuel : Nat) :
    ∀ (st : RadioState) (i : Nat),
      realLength (clearFrom st i fuel).choices = realLength st.choices := by
  induction fuel with
  | zero => intro st i; rfl
  | succ n ih =>
    intro st i
    rw [clearFrom]
    by_cases h : i < realLength st.choices
    · rw [if_pos h, ih, realLength_clearChoice]
    · rw [if_neg h]

theorem realLength_clearAll (st : RadioState) :
    realLength (clearAllChoices st).choices = realLength st.choices := by
  rw [clearAll_choices_eq, realLength_clearFrom]

theorem filter_realChoices (p : Choice → Bool) (hp : ∀ c, c.isSep = true → p c = false) :
    ∀ l : List Choice, l.filter p = (realChoices l).filter p
  | [] => rfl
  | c :: l => by
    cases hs : c.isSep with
    | true =>
      rw [realChoices_cons_sep c l hs]
      simp [List.filter_cons, hp c hs, filter_realChoices p hp l]
    | false =>
      rw [realChoices_cons_real c l hs]
      simp only [List.filter_cons, filter_realChoices p hp l]

theorem selCheckedP_sep (c : Choice) (h : c.isSep = true) : selCheckedP c = false := by
  simp [selCheckedP, sep_checked_false c h]

theorem checked_sep (c : Choice) (h : c.isSep = true) : c.checked = false :=
  sep_checked_false c h

theorem checkedSelectableCount_eq_real (l : List Choice) :
    checkedSelectableCount l = ((realChoices l).filter selCheckedP).length := by
  rw [checkedSelectableCount, filter_realChoices selCheckedP selCheckedP_sep]

theorem checkedCount_eq_real (l : List Choice) :
    checkedCount l = ((realChoices l).filter Choice.checked).length := by
  rw [checkedCount, filter_realChoices Choice.checked checked_sep]

theorem csc_clearAll_zero (st : RadioState) :
    checkedSelectableCount (clearAllChoices st).choices = 0 := by
  rw [checkedSelectableCount, List.length_eq_zero]
  exact List.filter_eq_nil_iff.mpr fun c hc => by
    simp [selCheckedP, clearAll_choices_unchecked st c hc]

theorem csc_setChoice_le (st : RadioState) (i : Int) :
    checkedSelectableCount (setChoice st i).choices
      ≤ checkedSelectableCount st.choices + 1 := by
  rcases Int.lt_or_le i 0 with h | h
  · rw [setChoice_neg st i h]; omega
  · rw [checkedSelectableCount_eq_real, checkedSelectableCount_eq_real,
      setChoice_choices st i h]
    exact filter_modifyIdx_le selCheckedP (fun c => c.setChecked true) i.toNat
      (realChoices st.choices)

theorem csc_clearChoice_le (st : RadioState) (i : Int) :
    checkedSelectableCount (clearChoice st i).choices
      ≤ checkedSelectableCount st.choices := by
  rcases Int.lt_or_le i 0 with h | h
  · rw [clearChoice_neg st i h]
  · rw [checkedSelectableCount_eq_real, checkedSelectableCount_eq_real,
      clearChoice_choices st i h]
    exact filter_modifyIdx_le_of selCheckedP (fun c => c.setChecked false)
      (fun c => by simp [selCheckedP, setChecked_false_checked c]) i.toNat
      (realChoices st.choices)

theorem csc_space_le_one (st : RadioState) :
    checkedSelectableCount (onSpaceKey st).choices ≤ 1 := by
  have h1 := csc_setChoice_le (clearAllChoices st) (Int.ofNat st.pointer)
  rw [csc_clearAll_zero st] at h1
  exact h1

theorem csc_applyOp_le_one (st : RadioState) (op : RadioOp) (hop : op.single = true)
    (h : checkedSelectableCount st.choices ≤ 1) :
    checkedSelectableCount (applyOp st op).choices ≤ 1 := by
  cases op with
  | inverse => simp [RadioOp.single] at hop
  | setIdx i => simp [RadioOp.single] at hop
  | space => exact csc_space_le_one st
  | up => exact h
  | down => exact h
  | clearIdx i => exact Nat.le_trans (csc_clearChoice_le st i) h
  | clearAll => rw [applyOp, csc_clearAll_zero st]; omega

theorem set_after_clear (st : RadioState) (j : Int) (h0 : 0 ≤ j)
    (hj : j.toNat < realLength st.choices)
    (hun : ∀ c ∈ st.choices, c.checked = false) :
    checkedCount (setChoice st j).choices = 1 ∧
    ∃ c, getChoice (setChoice st j).choices j = some c ∧ c.checked = true := by
  have hunReal : ∀ c ∈ realChoices st.choices, c.checked = false :=
    fun c hc => hun c (List.mem_filter.mp hc).1
  have hset : ∀ c ∈ realChoices st.choices, (c.setChecked true).checked = true :=
    fun c hc => setChecked_true_checked c (mem_realChoices_isSep c _ hc)
  constructor
  · rw [checkedCount_eq_real, setChoice_choices st j h0]
    exact filter_modifyIdx_one Choice.checked (fun c => c.setChecked true) j.toNat
      (realChoices st.choices) hunReal hset hj
  · obtain ⟨c0, hc0⟩ : ∃ c0, (realChoices st.choices)[j.toNat]? = some c0 := by
      have := List.getElem?_eq_getElem hj
      exact ⟨(realChoices st.choices)[j.toNat], this⟩
    refine ⟨c0.setChecked true, ?_, ?_⟩
    · rw [getChoice_nonneg _ _ h0, setChoice_choices st j h0, modifyIdx_get_self, hc0]
      rfl
    · exact setChecked_true_checked c0 (mem_realChoices_isSep c0 _ (List.getElem?_mem hc0))

theorem map_inv_inv : ∀ l : List Choice, (l.map invChoice).map invChoice = l
  | [] => rfl
  | c :: l => by
    have hc : invChoice (invChoice c) = c := by
      cases c with
      | separator line => rfl
      | item n v s ch d => simp [invChoice]
    simp [hc, map_inv_inv l]

/-! The claim theorems, one per claim of the specification audit,
with closed witnesses / counterexamples on concrete fixtures. -/

/-- C1: if submit is received while zero choices are both checked and
non-disabled, the delivered result is the cancellation sentinel, never
an empty list of answers (`getCurrentValue` collects nothing, so `onEnd`
takes the cancellation branch). -/
theorem submit_no_checked_cancels (st : RadioState)
    (h : ∀ c ∈ st.choices, (c.checked && !c.disabledT) = false) :
    (submit st).2 = Result.cancelSentinel ∧ (submit st).2 ≠ Result.answers [] := by
  have hfil : (st.choices.filter fun c => c.checked && !c.disabledT) = [] :=
    List.filter_eq_nil_iff.mpr fun c hc => by simp [h c hc]
  constructor
  · simp [submit, getCurrentValue, onEnd, hfil]
  · simp [submit, getCurrentValue, onEnd, hfil]

/-- C1 witness: a session whose only checked choice is disabled submits
to the cancellation sentinel. -/
theorem submit_no_checked_cancels_w :
    (submit stC1).2 = Result.cancelSentinel ∧ (submit stC1).2 ≠ Result.answers [] :=
  submit_no_checked_cancels stC1 (by decide)

/-- C2 counterexample: the claim quantifies over sequences that include
the inverse operation; one inverse press on a freshly constructed
two-choice session leaves two Selectable choices checked, so "at most
one Selectable choice has checked = true in every reachable state" is
false as stated. -/
theorem inverse_reachable_two_checked :
    checkedSelectableCount (applyOps st2 [RadioOp.inverse]).choices = 2 ∧
      ¬ checkedSelectableCount (applyOps st2 [RadioOp.inverse]).choices ≤ 1 := by
  constructor
  · decide
  · decide

/-- C2 amended: in every state reachable by space, up/down, clearChoice
and clearAllChoices from a state with at most one checked Selectable
choice, at most one Selectable choice has checked = true; the bulk
inverse toggle and a bare setChoice are excluded, since they can check
several choices. -/
theorem single_ops_preserve_at_most_one (st : RadioState) (ops : List RadioOp)
    (h0 : checkedSelectableCount st.choices ≤ 1)
    (hops : ∀ op ∈ ops, op.single = true) :
    checkedSelectableCount (applyOps st ops).choices ≤ 1 := by
  induction ops generalizing st with
  | nil => exact h0
  | cons op rest ih =>
    simp only [applyOps, List.foldl_cons]
    exact ih (applyOp st op)
      (csc_applyOp_le_one st op (hops op (List.mem_cons_self op rest)) h0)
      (fun x hx => hops x (List.mem_cons_of_mem op hx))

/-- C2 amended witness: a space, a cursor move and a clear-all keep the
invariant on a concrete session. -/
theorem single_ops_preserve_at_most_one_w :
    checkedSelectableCount
      (applyOps st2 [RadioOp.space, RadioOp.up, RadioOp.clearAll]).choices ≤ 1 :=
  single_ops_preserve_at_most_one st2 [RadioOp.space, RadioOp.up, RadioOp.clearAll]
    (by decide) (by decide)

/-- C3 counterexample: `setChoice(0)` followed by `setChoice(1)` on a
two-choice session leaves two checked choices — `setChoice` does not
clear the previous check, so the claim "exactly one checked, never two"
is false as stated. -/
theorem setChoice_twice_two_checked :
    checkedCount (setChoice (setChoice st2 0) 1).choices = 2 ∧
      checkedCount (setChoice (setChoice st2 0) 1).choices ≠ 1 := by
  constructor
  · decide
  · decide

/-- C3 amended: `setChoice(i)` followed by `clearAllChoices()` and then
`setChoice(j)` (the sequence the space handler performs, per the spec
"clearAll is used before every new setChoice") leaves exactly one
checked choice in total, namely the one at `j`. -/
theorem clear_between_set_single (st : RadioState) (i j : Int) (h0 : 0 ≤ j)
    (hj : j.toNat < realLength st.choices) :
    checkedCount (setChoice (clearAllChoices (setChoice st i)) j).choices = 1 ∧
    ∃ c, getChoice (setChoice (clearAllChoices (setChoice st i)) j).choices j = some c
      ∧ c.checked = true := by
  have hlen : j.toNat < realLength (clearAllChoices (setChoice st i)).choices := by
    rw [realLength_clearAll, realLength_setChoice]
    exact hj
  exact set_after_clear (clearAllChoices (setChoice st i)) j h0 hlen
    (clearAll_choices_unchecked (setChoice st i))

/-- C3 amended witness: concrete two-choice session, indices 0 then 1. -/
theorem clear_between_set_single_w :
    checkedCount (setChoice (clearAllChoices (setChoice st2 0)) 1).choices = 1 ∧
    ∃ c, getChoice (setChoice (clearAllChoices (setChoice st2 0)) 1).choices 1 = some c
      ∧ c.checked = true :=
  clear_between_set_single st2 0 1 (by decide) (by decide)

/-- C4: pointer movement rests only on navigable (non-separator)
choices, and a disabled choice is a valid resting position: for
`[A(disabled), B, C]` with pointer 1, pressing up moves the pointer to 0,
which addresses the disabled choice A. -/
theorem up_rests_on_disabled :
    (∀ (st : RadioState) (c : Choice),
        getChoice (onUpKey st).choices (Int.ofNat (onUpKey st).pointer) = some c →
          c.isSep = false)
    ∧ (onUpKey st3dis).pointer = 0
    ∧ getChoice st3dis.choices 0 = some itemAdis
    ∧ itemAdis.disabledT = true := by
  refine ⟨?_, by decide, by decide, by decide⟩
  intro st c h
  rw [getChoice_nonneg _ _ (intOfNat_nonneg _)] at h
  exact mem_realChoices_isSep c _ (List.getElem?_mem h)

/-- C4 witness: the general non-separator-resting fact applied at the
concrete disabled-head session. -/
theorem up_rests_on_disabled_w :
    itemAdis.isSep = false ∧ (onUpKey st3dis).pointer = 0 :=
  ⟨up_rests_on_disabled.1 st3dis itemAdis (by decide), up_rests_on_disabled.2.1⟩

/-- C5: after `clearAllChoices` every choice in the list has
`checked = false` (separators carry no checked flag, every navigable
choice is cleared by the loop) and `selected` is the empty string. -/
theorem clearAll_unchecks_everything (st : RadioState) :
    (∀ c ∈ (clearAllChoices st).choices, c.checked = false)
    ∧ (clearAllChoices st).selected = "" :=
  ⟨clearAll_choices_unchecked st, clearAll_selected st⟩

/-- C5 witness: concrete session, first choice of the cleared list. -/
theorem clearAll_unchecks_everything_w :
    itemA.checked = false ∧ (clearAllChoices st2).selected = "" :=
  ⟨(clearAll_unchecks_everything st2).1 itemA (by decide),
    (clearAll_unchecks_everything st2).2⟩

/-- C6: backspace finalizes the session as cancelled regardless of the
current state: `onBackspaceKeyKey` calls `onEnd` with no state, which
delivers the cancellation sentinel and marks the session answered. -/
theorem backspace_always_cancels (st : RadioState) :
    (backspace st).2 = Result.cancelSentinel
    ∧ (backspace st).1.status = SessionStatus.answered :=
  ⟨rfl, rfl⟩

/-- C7: `setChoice` and `clearChoice` at an out-of-range index leave the
whole state unchanged (the `getChoice` lookup fails and both operations
are total no-ops — no error reaches the host). -/
theorem out_of_range_noop (st : RadioState) (i : Int)
    (h : i < 0 ∨ (realLength st.choices : Int) ≤ i) :
    setChoice st i = st ∧ clearChoice st i = st := by
  have hg := getChoice_none st.choices i h
  exact ⟨by rw [setChoice, hg], by rw [clearChoice, hg]⟩

/-- C7 witness: index 5 on a two-choice session. -/
theorem out_of_range_noop_w : setChoice st2 5 = st2 ∧ clearChoice st2 5 = st2 :=
  out_of_range_noop st2 5 (by decide)

/-- C8 counterexample: two reachable answered states with identical
choice list, pointer and status — one reached by backspace, one by
submit — render to different strings, because `render` also reads the
cached `selection`; so rendering is not a function of
(list, pointer, status) alone. -/
theorem render_not_function_of_triple :
    stAback.choices = stAsub.choices ∧ stAback.pointer = stAsub.pointer
    ∧ stAback.status = stAsub.status
    ∧ render "Q" idPaginate none stAback ≠ render "Q" idPaginate none stAsub := by
  refine ⟨by decide, by decide, by decide, by decide⟩

/-- C8 amended: rendering is deterministic as a function of the full
state it reads — two calls with identical question, paginator, error,
choice list, pointer, status, cached selection and hint-suppression flag
produce identical output strings. -/
theorem render_deterministic (q : String) (pag : String → Int → String) (e : Option String)
    (s1 s2 : RadioState) (hc : s1.choices = s2.choices) (hp : s1.pointer = s2.pointer)
    (hs : s1.status = s2.status) (hsel : s1.selection = s2.selection)
    (hh : s1.dontShowHints = s2.dontShowHints) :
    render q pag e s1 = render q pag e s2 := by
  simp only [render, hc, hp, hs, hsel, hh]

/-- C8 amended witness: the congruence applied at a concrete state. -/
theorem render_deterministic_w :
    render "Q" idPaginate none st2 = render "Q" idPaginate none st2 :=
  render_deterministic "Q" idPaginate none st2 st2 rfl rfl rfl rfl rfl

/-- C9: applying the inverse operation twice restores every choice (in
particular every checked flag) to its original value: the bulk toggle is
an involution on the choice list. -/
theorem inverse_twice_identity (st : RadioState) :
    (onInverseKey (onInverseKey st)).choices = st.choices :=
  map_inv_inv st.choices

/-- C10: `getPointed` returns the empty string on an empty choice list;
on a non-empty list with the pointer a valid index into the navigable
choices it returns the name of the choice at the pointer. -/
theorem getPointed_contract (st : RadioState) :
    (st.choices = [] → getPointed st = some "")
    ∧ (st.choices ≠ [] → ∀ c, (realChoices st.choices)[st.pointer]? = some c →
        getPointed st = some c.name) := by
  constructor
  · intro h
    simp [getPointed, h]
  · intro hne c hc
    have hlen : 0 < st.choices.length := List.length_pos.mpr hne
    rw [getPointed, if_pos (by omega), getChoice_nonneg _ _ (intOfNat_nonneg _),
      intOfNat_toNat, hc]
    rfl

/-- C10 witness: the empty session and a concrete two-choice session at
pointer 0. -/
theorem getPointed_contract_w :
    getPointed stEmpty = some "" ∧ getPointed st2 = some itemA.name :=
  ⟨(getPointed_contract stEmpty).1 (by decide),
    (getPointed_contract st2).2 (by decide) itemA (by decide)⟩

end Radio
